import Mathlib

/-!
Shallow embedding of the lead-processing repository's routing engine and
inbound workflow, translated from the TypeScript sources:
  * `lead-routing` module (`salesTeamMemberSchema`, `LeadRouter`),
  * `lib/types.ts` (enumerations and qualification schema),
  * `lib/services` (`qualify`'s routing integration, `getEmailTemplateType`),
  * `workflows/inbound/index.ts` (`workflowInbound` branch structure).
JavaScript numbers used as lead counts are modelled as `Nat`; `undefined`
optional fields are modelled as `Option`; `x || 0` on an optional count is
`Option.getD 0` (a present `0` is falsy in JS and also yields `0`).
-/

/-- The 8 qualification categories of `qualificationCategorySchema`. -/
inductive QualificationCategory where
  | HOT_LEAD
  | QUALIFIED
  | WARM_LEAD
  | FOLLOW_UP
  | COLD_LEAD
  | UNQUALIFIED
  | SUPPORT
  | PARTNER
deriving DecidableEq, Repr

/-- The 4 priorities of `leadPrioritySchema`. -/
inductive LeadPriority where
  | URGENT
  | HIGH
  | MEDIUM
  | LOW
deriving DecidableEq, Repr

/-- The 9 industries of `industrySchema`. -/
inductive Industry where
  | TECHNOLOGY
  | FINANCE
  | HEALTHCARE
  | RETAIL
  | MANUFACTURING
  | EDUCATION
  | GOVERNMENT
  | NONPROFIT
  | OTHER
deriving DecidableEq, Repr

/-- The 5 company sizes of `companySizeSchema`. -/
inductive CompanySize where
  | ENTERPRISE
  | MID_MARKET
  | SMB
  | STARTUP
  | UNKNOWN
deriving DecidableEq, Repr

/-- The 4 sales roles of `salesTeamMemberSchema`'s `role` enum. -/
inductive SalesRole where
  | SDR
  | AE
  | ENTERPRISE_AE
  | TEAM_LEAD
deriving DecidableEq, Repr

/-- The string the TS template literal produces for an industry value. -/
def industryToString : Industry → String
  | .TECHNOLOGY => "TECHNOLOGY"
  | .FINANCE => "FINANCE"
  | .HEALTHCARE => "HEALTHCARE"
  | .RETAIL => "RETAIL"
  | .MANUFACTURING => "MANUFACTURING"
  | .EDUCATION => "EDUCATION"
  | .GOVERNMENT => "GOVERNMENT"
  | .NONPROFIT => "NONPROFIT"
  | .OTHER => "OTHER"

/-- The string the TS template literal produces for a role value. -/
def roleToString : SalesRole → String
  | .SDR => "SDR"
  | .AE => "AE"
  | .ENTERPRISE_AE => "ENTERPRISE_AE"
  | .TEAM_LEAD => "TEAM_LEAD"

/-- `salesTeamMemberSchema`: a member of the sales team. -/
structure SalesTeamMember where
  id : String
  name : String
  email : String
  role : SalesRole
  territories : Option (List String) := none
  industries : Option (List Industry) := none
  companySizes : Option (List CompanySize) := none
  maxActiveLeads : Option Nat := none
  currentLeadCount : Option Nat := none
deriving DecidableEq, Repr

/-- `qualificationSchema`: the classification produced once per run. -/
structure QualificationSchema where
  category : QualificationCategory
  priority : LeadPriority
  leadScore : Nat
  reason : String
  industry : Option Industry := none
  companySize : Option CompanySize := none
  estimatedDealValue : Option String := none
  nextSteps : List String := []
  assignedTo : Option String := none
deriving DecidableEq, Repr

/-- `member.currentLeadCount || 0`: a missing (or zero) count reads as 0. -/
def leadCount (w : SalesTeamMember) : Nat :=
  w.currentLeadCount.getD 0

/-- The `hasCapacity` test inside `findBestEnterpriseAE`:
`!ae.maxActiveLeads || (ae.currentLeadCount || 0) < ae.maxActiveLeads`.
In JS `!x` is true when `maxActiveLeads` is `undefined` or `0`. -/
def hasCapacity (ae : SalesTeamMember) : Bool :=
  match ae.maxActiveLeads with
  | none => true
  | some m => decide (m = 0) || decide (leadCount ae < m)

/-- The `hasIndustryMatch` test inside `findBestEnterpriseAE`:
`qualification.industry && ae.industries?.includes(qualification.industry)`.
An `undefined` industry or `undefined` specialty list is falsy. -/
def hasIndustryMatch (q : QualificationSchema) (ae : SalesTeamMember) : Bool :=
  match q.industry with
  | none => false
  | some i => (ae.industries.getD []).contains i

/-- `LeadRouter.findLeastBusyRep(team)`: `team.reduce((prev, current) =>
(prev.currentLeadCount || 0) < (current.currentLeadCount || 0) ? prev : current)`.
JS `reduce` with no seed starts from the first element; the guard returns
`null` on an empty team. -/
def findLeastBusyRep (team : List SalesTeamMember) : Option SalesTeamMember :=
  match team with
  | [] => none
  | t :: ts =>
      some (ts.foldl
        (fun prev current => if leadCount prev < leadCount current then prev else current) t)

/-- `LeadRouter.findBestEnterpriseAE(qualification)` over an explicit team list
(the TS method reads `this.salesTeam`). -/
def findBestEnterpriseAE (team : List SalesTeamMember) (q : QualificationSchema) :
    Option SalesTeamMember :=
  let enterpriseAEs := team.filter (fun member => decide (member.role = SalesRole.ENTERPRISE_AE))
  if enterpriseAEs.isEmpty then none
  else
    match enterpriseAEs.find? (fun ae => hasIndustryMatch q ae && hasCapacity ae) with
    | some m => some m
    | none => findLeastBusyRep enterpriseAEs

/-- `LeadRouter.findIndustryExpert(industry)` over an explicit team list. -/
def findIndustryExpert (team : List SalesTeamMember) (industry : Industry) :
    Option SalesTeamMember :=
  let experts := team.filter (fun member => (member.industries.getD []).contains industry)
  if experts.isEmpty then none
  else findLeastBusyRep experts

/-- `LeadRouter.routeLead(qualification)` over an explicit team list. -/
def routeLead (team : List SalesTeamMember) (q : QualificationSchema) :
    Option SalesTeamMember :=
  if team.isEmpty then none
  else
    let afterHot : Option SalesTeamMember :=
      if q.companySize = some CompanySize.ENTERPRISE then
        findBestEnterpriseAE team q
      else
        match q.industry with
        | some i =>
            match findIndustryExpert team i with
            | some expert => some expert
            | none => findLeastBusyRep team
        | none => findLeastBusyRep team
    if q.category = QualificationCategory.HOT_LEAD ∨ q.priority = LeadPriority.URGENT then
      match findBestEnterpriseAE team q with
      | some ae => some ae
      | none => afterHot
    else afterHot

/-- The record returned by `LeadRouter.getRoutingRecommendation`. -/
structure RoutingRecommendation where
  assignedTo : Option SalesTeamMember
  reason : String
deriving DecidableEq, Repr

/-- `LeadRouter.getRoutingRecommendation(qualification)` over an explicit team. -/
def getRoutingRecommendation (team : List SalesTeamMember) (q : QualificationSchema) :
    RoutingRecommendation :=
  match routeLead team q with
  | none =>
      { assignedTo := none
        reason := "No sales team configured. Please assign manually." }
  | some w =>
      let base := "Assigned to " ++ w.name ++ " (" ++ roleToString w.role ++ ")"
      let reason :=
        if q.category = QualificationCategory.HOT_LEAD then
          base ++ " - Hot lead requires enterprise AE"
        else if q.companySize = some CompanySize.ENTERPRISE then
          base ++ " - Enterprise account"
        else
          match q.industry with
          | some i =>
              if (w.industries.getD []).contains i then
                base ++ " - Industry expertise: " ++ industryToString i
              else base ++ " - Best available capacity"
          | none => base ++ " - Best available capacity"
      { assignedTo := some w, reason := reason }

/-- `emailTemplateTypeSchema`: the 7 email template kinds. -/
inductive EmailTemplateType where
  | HOT_LEAD_RESPONSE
  | QUALIFIED_RESPONSE
  | FOLLOW_UP
  | NURTURE
  | SUPPORT_REDIRECT
  | PARTNER_OUTREACH
  | COLD_OUTREACH
deriving DecidableEq, Repr

/-- `getEmailTemplateType(qualification)`: the `switch` on
`qualification.category` with `default: return 'NURTURE'`. -/
def getEmailTemplateType (q : QualificationSchema) : EmailTemplateType :=
  match q.category with
  | .HOT_LEAD => .HOT_LEAD_RESPONSE
  | .QUALIFIED => .QUALIFIED_RESPONSE
  | .WARM_LEAD => .QUALIFIED_RESPONSE
  | .FOLLOW_UP => .FOLLOW_UP
  | .SUPPORT => .SUPPORT_REDIRECT
  | .PARTNER => .PARTNER_OUTREACH
  | _ => .NURTURE

/-- The routing-integration block at the end of `qualify` in `lib/services`:
it always calls `leadRouter.getRoutingRecommendation(object)` and, when a rep
was assigned, writes the suggestion string into `object.assignedTo`. This runs
for every qualification category. -/
def qualifyRoutingIntegration (team : List SalesTeamMember) (q : QualificationSchema) :
    QualificationSchema :=
  let routing := getRoutingRecommendation team q
  match routing.assignedTo with
  | some w =>
      { q with assignedTo := some (w.name ++ " (" ++ w.email ++ ") - " ++ routing.reason) }
  | none => q

/-- The named steps that `workflowInbound` can invoke after qualification
(`stepResearch`, `stepEnrichment`, `stepQualify` always run first). The
`humanFeedbackStep` is the Slack approval gate: invoking it is what puts a
run into the awaiting-approval state. -/
inductive InboundStep where
  | research
  | enrichment
  | qualifyStep
  | writeEmailStep
  | followUpSequenceStep
  | humanFeedbackStep
deriving DecidableEq, Repr

/-- The sequence of steps `workflowInbound` executes, as a function of the
qualification category (the only branching condition in its body). Every
branch falls through to the final `return` summary, so every category
terminates normally. -/
def inboundSteps (category : QualificationCategory) : List InboundStep :=
  [InboundStep.research, InboundStep.enrichment, InboundStep.qualifyStep] ++
    match category with
    | .HOT_LEAD | .QUALIFIED | .WARM_LEAD | .FOLLOW_UP | .PARTNER =>
        [InboundStep.writeEmailStep, InboundStep.followUpSequenceStep,
         InboundStep.humanFeedbackStep]
    | .SUPPORT => [InboundStep.writeEmailStep, InboundStep.humanFeedbackStep]
    | .UNQUALIFIED => [InboundStep.writeEmailStep]
    | .COLD_LEAD => [InboundStep.writeEmailStep]

/-- The `LeadRouter` class: its only field is `private salesTeam`. -/
structure LeadRouter where
  salesTeam : List SalesTeamMember
deriving Repr

/-- `findLeastBusyRep` as a method: reads `this.salesTeam` for the default
argument, returns the result together with the object state it leaves behind
(its body contains no assignment, so the state passes through). -/
def LeadRouter.findLeastBusyRepRun (r : LeadRouter) (team : Option (List SalesTeamMember)) :
    Option SalesTeamMember × LeadRouter :=
  (findLeastBusyRep (team.getD r.salesTeam), r)

/-- `findBestEnterpriseAE` as a method with explicit state threading. -/
def LeadRouter.findBestEnterpriseAERun (r : LeadRouter) (q : QualificationSchema) :
    Option SalesTeamMember × LeadRouter :=
  let enterpriseAEs :=
    r.salesTeam.filter (fun member => decide (member.role = SalesRole.ENTERPRISE_AE))
  if enterpriseAEs.isEmpty then (none, r)
  else
    match enterpriseAEs.find? (fun ae => hasIndustryMatch q ae && hasCapacity ae) with
    | some m => (some m, r)
    | none => r.findLeastBusyRepRun (some enterpriseAEs)

/-- `findIndustryExpert` as a method with explicit state threading. -/
def LeadRouter.findIndustryExpertRun (r : LeadRouter) (industry : Industry) :
    Option SalesTeamMember × LeadRouter :=
  let experts := r.salesTeam.filter (fun member => (member.industries.getD []).contains industry)
  if experts.isEmpty then (none, r)
  else r.findLeastBusyRepRun (some experts)

/-- `routeLead` as a method with explicit state threading through every call. -/
def LeadRouter.routeLeadRun (r : LeadRouter) (q : QualificationSchema) :
    Option SalesTeamMember × LeadRouter :=
  if r.salesTeam.isEmpty then (none, r)
  else
    let hot := if q.category = QualificationCategory.HOT_LEAD ∨
        q.priority = LeadPriority.URGENT then r.findBestEnterpriseAERun q else (none, r)
    match hot with
    | (some ae, r1) => (some ae, r1)
    | (none, r1) =>
        if q.companySize = some CompanySize.ENTERPRISE then r1.findBestEnterpriseAERun q
        else
          match q.industry with
          | some i =>
              match r1.findIndustryExpertRun i with
              | (some expert, r2) => (some expert, r2)
              | (none, r2) => r2.findLeastBusyRepRun none
          | none => r1.findLeastBusyRepRun none

/-- `getRoutingRecommendation` as a method with explicit state threading. -/
def LeadRouter.getRoutingRecommendationRun (r : LeadRouter) (q : QualificationSchema) :
    RoutingRecommendation × LeadRouter :=
  match r.routeLeadRun q with
  | (none, r1) =>
      ({ assignedTo := none
         reason := "No sales team configured. Please assign manually." }, r1)
  | (some w, r1) =>
      let base := "Assigned to " ++ w.name ++ " (" ++ roleToString w.role ++ ")"
      let reason :=
        if q.category = QualificationCategory.HOT_LEAD then
          base ++ " - Hot lead requires enterprise AE"
        else if q.companySize = some CompanySize.ENTERPRISE then
          base ++ " - Enterprise account"
        else
          match q.industry with
          | some i =>
              if (w.industries.getD []).contains i then
                base ++ " - Industry expertise: " ++ industryToString i
              else base ++ " - Best available capacity"
          | none => base ++ " - Best available capacity"
      ({ assignedTo := some w, reason := reason }, r1)

/-! Concrete sales-team members and qualifications used as test inputs. -/

namespace Fixture

/-- An SDR with 5 active leads, listed first in tie-break examples. -/
def alice : SalesTeamMember :=
  { id := "rep-1", name := "Alice", email := "alice@example.com",
    role := SalesRole.SDR, currentLeadCount := some 5 }

/-- An SDR with the same load as `alice`, listed second. -/
def bob : SalesTeamMember :=
  { id := "rep-2", name := "Bob", email := "bob@example.com",
    role := SalesRole.SDR, currentLeadCount := some 5 }

/-- An enterprise AE with no specialties and no configured counts. -/
def sarah : SalesTeamMember :=
  { id := "ae-1", name := "Sarah", email := "sarah@example.com",
    role := SalesRole.ENTERPRISE_AE }

/-- An enterprise AE configured with `maxActiveLeads = 0` and a
TECHNOLOGY specialty. -/
def zeroCapAE : SalesTeamMember :=
  { id := "ae-2", name := "Zoe", email := "zoe@example.com",
    role := SalesRole.ENTERPRISE_AE, industries := some [Industry.TECHNOLOGY],
    maxActiveLeads := some 0, currentLeadCount := some 3 }

/-- A qualification with the given category and no optional fields. -/
def mkQual (c : QualificationCategory) : QualificationSchema :=
  { category := c, priority := LeadPriority.MEDIUM, leadScore := 50, reason := "r" }

/-- An URGENT-priority qualification whose category is not HOT_LEAD. -/
def urgentQualified : QualificationSchema :=
  { category := QualificationCategory.QUALIFIED, priority := LeadPriority.URGENT,
    leadScore := 70, reason := "clear timeline" }

/-- A COLD_LEAD qualification. -/
def coldLead : QualificationSchema :=
  { category := QualificationCategory.COLD_LEAD, priority := LeadPriority.LOW,
    leadScore := 20, reason := "low intent" }

/-- A qualification carrying a TECHNOLOGY industry tag. -/
def techQual : QualificationSchema :=
  { category := QualificationCategory.WARM_LEAD, priority := LeadPriority.MEDIUM,
    leadScore := 50, reason := "r", industry := some Industry.TECHNOLOGY }

end Fixture

/-! Helper lemmas about the least-busy `reduce`. -/

/-- The `reduce` accumulator of `findLeastBusyRep`, starting from `t`. -/
def leastBusyFold (t : SalesTeamMember) (ts : List SalesTeamMember) : SalesTeamMember :=
  ts.foldl (fun prev current => if leadCount prev < leadCount current then prev else current) t

lemma leastBusyFold_cons (t a : SalesTeamMember) (ts : List SalesTeamMember) :
    leastBusyFold t (a :: ts) =
      leastBusyFold (if leadCount t < leadCount a then t else a) ts := rfl

/-- The least-busy `reduce` returns a candidate of minimum load, and strictly
undercuts every candidate after its own position (it is the last candidate
attaining the minimum: on ties the ternary keeps `current`, the later one). -/
lemma leastBusyFold_spec :
    ∀ (ts : List SalesTeamMember) (t : SalesTeamMember),
      leastBusyFold t ts ∈ t :: ts ∧
      (∀ v ∈ t :: ts, leadCount (leastBusyFold t ts) ≤ leadCount v) ∧
      ∃ pre post, t :: ts = pre ++ leastBusyFold t ts :: post ∧
        ∀ v ∈ post, leadCount (leastBusyFold t ts) < leadCount v := by
  intro ts
  induction ts with
  | nil =>
      intro t
      refine ⟨List.mem_singleton.mpr rfl, ?_, [], [], rfl, by simp⟩
      intro v hv
      have hvt : v = t := by simpa using hv
      simp [hvt, leastBusyFold]
  | cons a ts ih =>
      intro t
      rw [leastBusyFold_cons]
      by_cases h : leadCount t < leadCount a
      · rw [if_pos h]
        obtain ⟨hmem, hmin, pre, post, hdec, hpost⟩ := ih t
        refine ⟨?_, ?_, ?_⟩
        · rcases List.mem_cons.mp hmem with h1 | h1
          · rw [h1]; exact List.mem_cons_self _ _
          · exact List.mem_cons.mpr (Or.inr (List.mem_cons.mpr (Or.inr h1)))
        · intro v hv
          rcases List.mem_cons.mp hv with rfl | hv'
          · exact hmin _ (List.mem_cons_self _ _)
          · rcases List.mem_cons.mp hv' with rfl | hv''
            · exact le_of_lt (lt_of_le_of_lt (hmin t (List.mem_cons_self _ _)) h)
            · exact hmin _ (List.mem_cons.mpr (Or.inr hv''))
        · cases pre with
          | nil =>
              simp only [List.nil_append, List.cons.injEq] at hdec
              obtain ⟨h1, h2⟩ := hdec
              refine ⟨[], a :: ts, by rw [List.nil_append, ← h1], ?_⟩
              intro v hv
              rcases List.mem_cons.mp hv with rfl | hv'
              · exact lt_of_le_of_lt (le_of_eq (congrArg leadCount h1.symm)) h
              · exact hpost _ (h2 ▸ hv')
          | cons p pre' =>
              simp only [List.cons_append, List.cons.injEq] at hdec
              obtain ⟨h1, h2⟩ := hdec
              refine ⟨t :: a :: pre', post, ?_, hpost⟩
              rw [List.cons_append, List.cons_append, ← h2]
      · rw [if_neg h]
        have hle : leadCount a ≤ leadCount t := Nat.le_of_not_lt h
        obtain ⟨hmem, hmin, pre, post, hdec, hpost⟩ := ih a
        refine ⟨List.mem_cons.mpr (Or.inr hmem), ?_, t :: pre, post, ?_, hpost⟩
        · intro v hv
          rcases List.mem_cons.mp hv with rfl | hv'
          · exact le_trans (hmin a (List.mem_cons_self _ _)) hle
          · exact hmin _ hv'
        · rw [List.cons_append, ← hdec]

/-- Characterisation of `findLeastBusyRep`: the chosen rep is a member of the
team, has the minimum load, and every rep after it in the list has strictly
greater load (ties resolve to the last-encountered minimum). -/
lemma findLeastBusyRep_spec (team : List SalesTeamMember) (w : SalesTeamMember)
    (h : findLeastBusyRep team = some w) :
    w ∈ team ∧ (∀ v ∈ team, leadCount w ≤ leadCount v) ∧
      ∃ pre post, team = pre ++ w :: post ∧ ∀ v ∈ post, leadCount w < leadCount v := by
  cases team with
  | nil => simp [findLeastBusyRep] at h
  | cons t ts =>
      have hw : leastBusyFold t ts = w := Option.some.inj h
      exact hw ▸ leastBusyFold_spec ts t

lemma findLeastBusyRep_isSome (team : List SalesTeamMember) (h : team ≠ []) :
    (findLeastBusyRep team).isSome = true := by
  cases team with
  | nil => exact absurd rfl h
  | cons t ts => rfl

/-- Whatever `findBestEnterpriseAE` returns comes from the team's
enterprise-AE filter, so it has role `ENTERPRISE_AE`. -/
lemma findBestEnterpriseAE_some (team : List SalesTeamMember) (q : QualificationSchema)
    (w : SalesTeamMember) (h : findBestEnterpriseAE team q = some w) :
    w ∈ team ∧ w.role = SalesRole.ENTERPRISE_AE := by
  simp only [findBestEnterpriseAE] at h
  split at h
  · exact absurd h (by simp)
  · split at h
    · next m heq =>
        obtain rfl : m = w := Option.some.inj h
        have hm := List.mem_of_find?_eq_some heq
        have := List.mem_filter.mp hm
        exact ⟨this.1, of_decide_eq_true this.2⟩
    · have hw := (findLeastBusyRep_spec _ _ h).1
      have := List.mem_filter.mp hw
      exact ⟨this.1, of_decide_eq_true this.2⟩

/-- When the team has an enterprise AE, `findBestEnterpriseAE` returns one. -/
lemma findBestEnterpriseAE_isSome (team : List SalesTeamMember) (q : QualificationSchema)
    (h : ∃ w ∈ team, w.role = SalesRole.ENTERPRISE_AE) :
    (findBestEnterpriseAE team q).isSome = true := by
  obtain ⟨w0, hw0, hrole⟩ := h
  have hmem : w0 ∈ team.filter (fun member => decide (member.role = SalesRole.ENTERPRISE_AE)) :=
    List.mem_filter.mpr ⟨hw0, by simp [hrole]⟩
  have hne : team.filter (fun member => decide (member.role = SalesRole.ENTERPRISE_AE)) ≠ [] :=
    List.ne_nil_of_mem hmem
  simp only [findBestEnterpriseAE]
  split
  · next hempty => exact absurd (List.isEmpty_iff.mp hempty) hne
  · split
    · rfl
    · exact findLeastBusyRep_isSome _ hne

/-- When the team has no enterprise AE, `findBestEnterpriseAE` returns null. -/
lemma findBestEnterpriseAE_none (team : List SalesTeamMember) (q : QualificationSchema)
    (h : ∀ w ∈ team, w.role ≠ SalesRole.ENTERPRISE_AE) :
    findBestEnterpriseAE team q = none := by
  have hnil : team.filter (fun member => decide (member.role = SalesRole.ENTERPRISE_AE)) = [] := by
    rw [List.filter_eq_nil_iff]
    intro w hw
    simpa using h w hw
  simp [findBestEnterpriseAE, hnil]

/-- C1: for a HOT_LEAD category or URGENT priority, if the pool contains at
least one ENTERPRISE_AE, `routeLead` assigns an ENTERPRISE_AE, never a worker
of any other role. -/
theorem routeLead_hot_urgent_enterpriseAE (team : List SalesTeamMember)
    (q : QualificationSchema)
    (hcat : q.category = QualificationCategory.HOT_LEAD ∨ q.priority = LeadPriority.URGENT)
    (hae : ∃ w ∈ team, w.role = SalesRole.ENTERPRISE_AE) :
    ∃ w, routeLead team q = some w ∧ w.role = SalesRole.ENTERPRISE_AE := by
  have hne : team ≠ [] := by
    obtain ⟨w0, hw0, _⟩ := hae
    exact List.ne_nil_of_mem hw0
  have hemp : team.isEmpty = false := by
    cases team with
    | nil => exact absurd rfl hne
    | cons t ts => rfl
  obtain ⟨w, hw⟩ := Option.isSome_iff_exists.mp (findBestEnterpriseAE_isSome team q hae)
  obtain ⟨_, hwrole⟩ := findBestEnterpriseAE_some team q w hw
  refine ⟨w, ?_, hwrole⟩
  simp only [routeLead, hemp, Bool.false_eq_true, if_false, if_pos hcat, hw]

/-- C2 counterexample: two reps with equal load 5; the claim says the
first-encountered (`alice`) wins the tie, but `findLeastBusyRep` returns the
later rep (`bob`), because the JS ternary keeps `current` on a tie. -/
theorem findLeastBusyRep_tie_counterexample :
    findLeastBusyRep [Fixture.alice, Fixture.bob] = some Fixture.bob ∧
    Fixture.bob ≠ Fixture.alice ∧
    leadCount Fixture.alice = leadCount Fixture.bob := by
  refine ⟨rfl, ?_, rfl⟩
  intro h
  exact absurd (congrArg SalesTeamMember.id h) (by decide)

/-- C2 (amended): the rep chosen by `findLeastBusyRep` is a candidate of
minimum `currentLeadCount` (missing counts read as 0), and among candidates
sharing that minimum the LAST encountered in pool iteration order is chosen
(every candidate after the chosen one has strictly greater load). -/
theorem findLeastBusyRep_min_last_tie (team : List SalesTeamMember)
    (w : SalesTeamMember) (h : findLeastBusyRep team = some w) :
    w ∈ team ∧ (∀ v ∈ team, leadCount w ≤ leadCount v) ∧
      ∃ pre post, team = pre ++ w :: post ∧ ∀ v ∈ post, leadCount w < leadCount v :=
  findLeastBusyRep_spec team w h

/-- C1 witness: a concrete HOT_LEAD qualification and a pool whose second
member is an enterprise AE. -/
theorem routeLead_hot_urgent_enterpriseAE_witness :
    ∃ w, routeLead [Fixture.alice, Fixture.sarah]
        (Fixture.mkQual QualificationCategory.HOT_LEAD) = some w ∧
      w.role = SalesRole.ENTERPRISE_AE :=
  routeLead_hot_urgent_enterpriseAE [Fixture.alice, Fixture.sarah]
    (Fixture.mkQual QualificationCategory.HOT_LEAD) (Or.inl rfl)
    ⟨Fixture.sarah, by decide, rfl⟩

/-- C2 witness: on the two-rep tie pool, the characterisation instantiates to
`bob`, the last-encountered minimum. -/
theorem findLeastBusyRep_min_last_tie_witness :
    Fixture.bob ∈ [Fixture.alice, Fixture.bob] ∧
      (∀ v ∈ [Fixture.alice, Fixture.bob], leadCount Fixture.bob ≤ leadCount v) ∧
      ∃ pre post, [Fixture.alice, Fixture.bob] = pre ++ Fixture.bob :: post ∧
        ∀ v ∈ post, leadCount Fixture.bob < leadCount v :=
  findLeastBusyRep_min_last_tie [Fixture.alice, Fixture.bob] Fixture.bob (by decide)

/-- C3 counterexample: for a COLD_LEAD qualification over a non-empty pool,
`qualify`'s routing integration does consult the routing engine and records a
suggested assignment, contradicting "the routing engine is never consulted
for that lead" and "no Assignment created". -/
theorem cold_lead_routing_consulted_counterexample :
    Fixture.coldLead.category = QualificationCategory.COLD_LEAD ∧
    (getRoutingRecommendation [Fixture.alice] Fixture.coldLead).assignedTo =
      some Fixture.alice ∧
    (qualifyRoutingIntegration [Fixture.alice] Fixture.coldLead).assignedTo =
      some "Alice (alice@example.com) - Assigned to Alice (SDR) - Best available capacity" := by
  refine ⟨rfl, rfl, rfl⟩

/-- C3 (amended): a COLD_LEAD run executes only research, enrichment,
qualification and the light-touch email, never the approval gate or the
follow-up sequence, and terminates normally; the routing engine is however
consulted inside the qualification step and records a suggested assignment. -/
theorem cold_lead_no_gate_no_followup :
    inboundSteps QualificationCategory.COLD_LEAD =
      [InboundStep.research, InboundStep.enrichment, InboundStep.qualifyStep,
       InboundStep.writeEmailStep] ∧
    InboundStep.humanFeedbackStep ∉ inboundSteps QualificationCategory.COLD_LEAD ∧
    InboundStep.followUpSequenceStep ∉ inboundSteps QualificationCategory.COLD_LEAD ∧
    ((qualifyRoutingIntegration [Fixture.alice] Fixture.coldLead).assignedTo).isSome = true := by
  refine ⟨rfl, by decide, by decide, rfl⟩

/-- C4: neither UNQUALIFIED nor COLD_LEAD runs ever invoke the Slack
human-feedback step (the approval gate, whose invocation is what puts a run
into the awaiting-approval state), and UNQUALIFIED never generates a
follow-up sequence. -/
theorem unqualified_cold_never_await_approval :
    InboundStep.humanFeedbackStep ∉ inboundSteps QualificationCategory.UNQUALIFIED ∧
    InboundStep.humanFeedbackStep ∉ inboundSteps QualificationCategory.COLD_LEAD ∧
    InboundStep.followUpSequenceStep ∉ inboundSteps QualificationCategory.UNQUALIFIED := by
  decide

/-- C5: for every qualification, routing over the empty pool returns a
null assignee (no exception is possible: the embedding is a total function)
and the recommendation's reason states that no sales team is configured. -/
theorem empty_pool_no_match (q : QualificationSchema) :
    routeLead [] q = none ∧
    getRoutingRecommendation [] q =
      { assignedTo := none
        reason := "No sales team configured. Please assign manually." } := by
  exact ⟨rfl, rfl⟩

/-- C6 counterexample: QUALIFIED and WARM_LEAD are distinct categories mapped
to the same template kind, so the selector is not a mapping onto 7 distinct
template kinds. -/
theorem template_not_injective_counterexample :
    QualificationCategory.QUALIFIED ≠ QualificationCategory.WARM_LEAD ∧
    getEmailTemplateType (Fixture.mkQual QualificationCategory.QUALIFIED) =
      getEmailTemplateType (Fixture.mkQual QualificationCategory.WARM_LEAD) ∧
    getEmailTemplateType (Fixture.mkQual QualificationCategory.QUALIFIED) =
      EmailTemplateType.QUALIFIED_RESPONSE := by
  decide

/-- C6 (amended): the template selector is a pure function of
`classification.category` alone; 6 categories are explicitly mapped onto 5
distinct template kinds (QUALIFIED and WARM_LEAD share QUALIFIED_RESPONSE),
the unmapped categories (COLD_LEAD, UNQUALIFIED) default to NURTURE, and
COLD_OUTREACH is never selected. -/
theorem template_category_mapping :
    (∀ q1 q2 : QualificationSchema, q1.category = q2.category →
        getEmailTemplateType q1 = getEmailTemplateType q2) ∧
    (∀ q : QualificationSchema, getEmailTemplateType q ≠ EmailTemplateType.COLD_OUTREACH) ∧
    (∀ c : QualificationCategory, getEmailTemplateType (Fixture.mkQual c) =
      match c with
      | .HOT_LEAD => .HOT_LEAD_RESPONSE
      | .QUALIFIED => .QUALIFIED_RESPONSE
      | .WARM_LEAD => .QUALIFIED_RESPONSE
      | .FOLLOW_UP => .FOLLOW_UP
      | .SUPPORT => .SUPPORT_REDIRECT
      | .PARTNER => .PARTNER_OUTREACH
      | .COLD_LEAD => .NURTURE
      | .UNQUALIFIED => .NURTURE) := by
  refine ⟨?_, ?_, ?_⟩
  · intro q1 q2 h
    simp only [getEmailTemplateType, h]
  · intro q
    cases h : q.category <;> simp [getEmailTemplateType, h]
  · intro c
    cases c <;> rfl

/-- C6 witness: purity instantiated at two qualifications differing only in
score, and the never-COLD_OUTREACH part at a concrete qualification. -/
theorem template_category_mapping_witness :
    getEmailTemplateType (Fixture.mkQual QualificationCategory.SUPPORT) =
      getEmailTemplateType
        { Fixture.mkQual QualificationCategory.SUPPORT with leadScore := 99 } ∧
    getEmailTemplateType Fixture.techQual ≠ EmailTemplateType.COLD_OUTREACH :=
  ⟨template_category_mapping.1 _ _ rfl, template_category_mapping.2.1 Fixture.techQual⟩

/-! State-threading lemmas for the `LeadRouter` methods. -/

lemma findLeastBusyRepRun_state (r : LeadRouter) (team : Option (List SalesTeamMember)) :
    (r.findLeastBusyRepRun team).2 = r := rfl

lemma findBestEnterpriseAERun_state (r : LeadRouter) (q : QualificationSchema) :
    (r.findBestEnterpriseAERun q).2 = r := by
  simp only [LeadRouter.findBestEnterpriseAERun]
  split
  · rfl
  · split
    · rfl
    · rfl

lemma findIndustryExpertRun_state (r : LeadRouter) (i : Industry) :
    (r.findIndustryExpertRun i).2 = r := by
  simp only [LeadRouter.findIndustryExpertRun]
  split
  · rfl
  · rfl

lemma routeLeadRun_state (r : LeadRouter) (q : QualificationSchema) :
    (r.routeLeadRun q).2 = r := by
  simp only [LeadRouter.routeLeadRun]
  split
  · rfl
  · have hhot : (if q.category = QualificationCategory.HOT_LEAD ∨
        q.priority = LeadPriority.URGENT then r.findBestEnterpriseAERun q
        else (none, r)).2 = r := by
      split
      · exact findBestEnterpriseAERun_state r q
      · rfl
    split
    · next ae r1 heq =>
        have h2 : r1 = r := ((congrArg Prod.snd heq).symm.trans hhot :)
        exact h2
    · next r1 heq =>
        have h2 : r1 = r := ((congrArg Prod.snd heq).symm.trans hhot :)
        subst h2
        split
        · exact findBestEnterpriseAERun_state r1 q
        · split
          · next ind hind =>
              split
              · next e r2 heq2 =>
                  exact ((congrArg Prod.snd heq2).symm.trans
                    (findIndustryExpertRun_state r1 ind) :)
              · next r2 heq2 =>
                  have h3 : r2 = r1 :=
                    ((congrArg Prod.snd heq2).symm.trans
                      (findIndustryExpertRun_state r1 ind) :)
                  simpa [LeadRouter.findLeastBusyRepRun] using h3
          · rfl

lemma getRoutingRecommendationRun_state (r : LeadRouter) (q : QualificationSchema) :
    (r.getRoutingRecommendationRun q).2 = r := by
  simp only [LeadRouter.getRoutingRecommendationRun]
  split
  · next r1 heq =>
      exact ((congrArg Prod.snd heq).symm.trans (routeLeadRun_state r q) :)
  · next w r1 heq =>
      exact ((congrArg Prod.snd heq).symm.trans (routeLeadRun_state r q) :)

/-- C7: computing a routing decision leaves the router's worker pool exactly
as it was: the state each method threads out equals the state passed in, so
no worker record (and in particular no `currentLeadCount`) is mutated by
planning. -/
theorem routing_leaves_pool_unchanged (r : LeadRouter) (q : QualificationSchema) :
    (r.routeLeadRun q).2 = r ∧
    (r.getRoutingRecommendationRun q).2 = r ∧
    (r.routeLeadRun q).2.salesTeam = r.salesTeam :=
  ⟨routeLeadRun_state r q, getRoutingRecommendationRun_state r q,
    congrArg LeadRouter.salesTeam (routeLeadRun_state r q)⟩

/-- C8 counterexample: an URGENT, non-HOT qualification routed to an
enterprise AE by the HOT-or-URGENT rule (rule 1), yet the recommendation's
reason is the lowest-precedence "Best available capacity" text rather than
the rule-1 explanation. -/
theorem urgent_reason_mismatch_counterexample :
    Fixture.urgentQualified.priority = LeadPriority.URGENT ∧
    Fixture.urgentQualified.category ≠ QualificationCategory.HOT_LEAD ∧
    findBestEnterpriseAE [Fixture.sarah, Fixture.alice] Fixture.urgentQualified =
      some Fixture.sarah ∧
    routeLead [Fixture.sarah, Fixture.alice] Fixture.urgentQualified =
      some Fixture.sarah ∧
    (getRoutingRecommendation [Fixture.sarah, Fixture.alice] Fixture.urgentQualified).reason =
      "Assigned to Sarah (ENTERPRISE_AE) - Best available capacity" ∧
    (getRoutingRecommendation [Fixture.sarah, Fixture.alice] Fixture.urgentQualified).reason ≠
      "Assigned to Sarah (ENTERPRISE_AE) - Hot lead requires enterprise AE" := by
  refine ⟨rfl, by decide, rfl, rfl, rfl, by decide⟩

/-- C8 (amended): the reason suffix is recomputed from the qualification and
the assignee rather than from the rule that fired; it explains the
HOT-or-URGENT rule exactly when the category is HOT_LEAD, in which case
every assignment's reason carries the rule-1 explanation. -/
theorem hot_lead_reason_explains_rule (team : List SalesTeamMember)
    (q : QualificationSchema) (w : SalesTeamMember)
    (hroute : routeLead team q = some w)
    (hcat : q.category = QualificationCategory.HOT_LEAD) :
    (getRoutingRecommendation team q).reason =
      ("Assigned to " ++ w.name ++ " (" ++ roleToString w.role ++ ")") ++
        " - Hot lead requires enterprise AE" := by
  simp [getRoutingRecommendation, hroute, hcat]

/-- C8 witness: a HOT_LEAD qualification over a single-AE pool. -/
theorem hot_lead_reason_explains_rule_witness :
    (getRoutingRecommendation [Fixture.sarah]
        (Fixture.mkQual QualificationCategory.HOT_LEAD)).reason =
      ("Assigned to " ++ Fixture.sarah.name ++ " (" ++ roleToString Fixture.sarah.role ++
        ")") ++ " - Hot lead requires enterprise AE" :=
  hot_lead_reason_explains_rule [Fixture.sarah]
    (Fixture.mkQual QualificationCategory.HOT_LEAD) Fixture.sarah (by decide) rfl

/-- C9: when `companySize` is ENTERPRISE and the pool holds no ENTERPRISE_AE,
`routeLead` returns null even over a non-empty pool (rule 2 returns
`findBestEnterpriseAE`'s null unconditionally); by contrast a HOT_LEAD
qualification without the ENTERPRISE size falls through past the missing AEs
to the later rules and still assigns someone. -/
theorem routeLead_enterprise_size_no_ae :
    (∀ (team : List SalesTeamMember) (q : QualificationSchema),
      q.companySize = some CompanySize.ENTERPRISE →
      (∀ w ∈ team, w.role ≠ SalesRole.ENTERPRISE_AE) →
      routeLead team q = none) ∧
    (∀ (team : List SalesTeamMember) (q : QualificationSchema),
      team ≠ [] → q.category = QualificationCategory.HOT_LEAD →
      q.companySize ≠ some CompanySize.ENTERPRISE →
      (∀ w ∈ team, w.role ≠ SalesRole.ENTERPRISE_AE) →
      (routeLead team q).isSome = true) := by
  constructor
  · intro team q hsize hnoae
    cases team with
    | nil => rfl
    | cons t ts =>
        have hfb := findBestEnterpriseAE_none (t :: ts) q hnoae
        simp [routeLead, hfb, hsize]
  · intro team q hne hcat hsize hnoae
    cases team with
    | nil => exact absurd rfl hne
    | cons t ts =>
        have hfb := findBestEnterpriseAE_none (t :: ts) q hnoae
        simp only [routeLead, List.isEmpty_cons, Bool.false_eq_true, if_false, hfb, hcat,
          true_or, if_true, hsize, if_neg hsize]
        cases hi : q.industry with
        | none => exact findLeastBusyRep_isSome _ hne
        | some i =>
            show (match findIndustryExpert (t :: ts) i with
                  | some expert => some expert
                  | none => findLeastBusyRep (t :: ts)).isSome = true
            cases hfi : findIndustryExpert (t :: ts) i with
            | none => exact findLeastBusyRep_isSome _ hne
            | some e => rfl

/-- C9 witness: an SDR-only pool with an ENTERPRISE-size qualification yields
null, while a HOT_LEAD qualification over the same pool is still assigned. -/
theorem routeLead_enterprise_size_no_ae_witness :
    routeLead [Fixture.alice]
        { Fixture.coldLead with companySize := some CompanySize.ENTERPRISE } = none ∧
    (routeLead [Fixture.alice]
        (Fixture.mkQual QualificationCategory.HOT_LEAD)).isSome = true :=
  ⟨routeLead_enterprise_size_no_ae.1 [Fixture.alice]
      { Fixture.coldLead with companySize := some CompanySize.ENTERPRISE } rfl (by decide),
   routeLead_enterprise_size_no_ae.2 [Fixture.alice]
      (Fixture.mkQual QualificationCategory.HOT_LEAD) (by decide) rfl (by decide) (by decide)⟩

/-- C10: the enterprise-AE capacity test treats an unset or zero
`maxActiveLeads` as unlimited capacity and a missing `currentLeadCount` as a
load of 0; consequently an AE configured with `maxActiveLeads = 0` is still
selected by the industry-and-capacity `find`. -/
theorem capacity_unset_or_zero_unlimited :
    (∀ ae : SalesTeamMember, ae.maxActiveLeads = none → hasCapacity ae = true) ∧
    (∀ ae : SalesTeamMember, ae.maxActiveLeads = some 0 → hasCapacity ae = true) ∧
    (∀ ae : SalesTeamMember, ae.currentLeadCount = none → leadCount ae = 0) ∧
    ([Fixture.zeroCapAE].find?
        (fun ae => hasIndustryMatch Fixture.techQual ae && hasCapacity ae) =
      some Fixture.zeroCapAE) ∧
    findBestEnterpriseAE [Fixture.zeroCapAE] Fixture.techQual = some Fixture.zeroCapAE ∧
    Fixture.zeroCapAE.maxActiveLeads = some 0 := by
  refine ⟨?_, ?_, ?_, rfl, rfl, rfl⟩
  · intro ae h
    simp [hasCapacity, h]
  · intro ae h
    simp [hasCapacity, h]
  · intro ae h
    simp [leadCount, h]

/-- C10 witness: `sarah` has both fields unset, `zeroCapAE` has a zero
ceiling; both pass the capacity test. -/
theorem capacity_unset_or_zero_unlimited_witness :
    hasCapacity Fixture.sarah = true ∧ hasCapacity Fixture.zeroCapAE = true ∧
    leadCount Fixture.sarah = 0 :=
  ⟨capacity_unset_or_zero_unlimited.1 Fixture.sarah rfl,
   capacity_unset_or_zero_unlimited.2.1 Fixture.zeroCapAE rfl,
   capacity_unset_or_zero_unlimited.2.2.1 Fixture.sarah rfl⟩
